import Mathlib

/-!
Shallow embedding of the Custom-Logger repository (src/logger.py): the
Logging configuration class (setup, shutdown, cleanup_logs) and the Logger
stream interceptor (write, rotation, close), modelled as pure state-passing
functions over an explicit process state.  Python strings are modelled as
lists of characters, wall-clock reads as an explicit clock stream indexed
by a tick counter (one reading per datetime.now call), and all I/O as an
ordered event trace.
-/

namespace CustomLogger

/-- Python strings are modelled as lists of characters. -/
abbrev Str := List Char

/-- Model of Python str.strip: drop whitespace from both ends. -/
def pyStrip (s : Str) : Str :=
  ((s.dropWhile Char.isWhitespace).reverse.dropWhile Char.isWhitespace).reverse

/-- Number of newline characters in a string; it exactly bounds the number of
iterations of the line-extraction loop in Logger.write. -/
def countNL : Str → Nat
  | [] => 0
  | c :: r => (if c = '\n' then 1 else 0) + countNL r

/-- Model of splitting a Python string at its first newline (buffer.split with
maxsplit 1 in logger.py line 179): the text before the first newline and the
text after it, or none when the string has no newline. -/
def splitOnceNL : Str → Option (Str × Str)
  | [] => none
  | c :: r =>
    if c = '\n' then some ([], r)
    else
      match splitOnceNL r with
      | none => none
      | some (l, rest) => some (c :: l, rest)

/-- One piece of the line_format template: literal text or one of the two
substitution slots. -/
inductive Piece
  | lit (s : Str)
  | timestamp
  | message
deriving DecidableEq

/-- Model of line_format.format with the two named slots (logger.py line 182). -/
def formatLine : List Piece → Str → Str → Str
  | [], _, _ => []
  | .lit l :: r, ts, msg => l ++ formatLine r ts msg
  | .timestamp :: r, ts, msg => ts ++ formatLine r ts msg
  | .message :: r, ts, msg => msg ++ formatLine r ts msg

/-- Model of os.path.join for a directory and a file name. -/
def pathJoin (d n : Str) : Str := d ++ '/' :: n

/-- A wall-clock reading: the calendar date in the configured timezone and the
rendering of the reading under any strftime format string. -/
structure Time where
  date : Int
  render : Str → Str

/-- The ambient environment: the clock stream (one reading per now call),
open failures per path, the str rendering of an optional date, whether a path
already holds a non-empty file (a fact the code never reads), and the timezone
conversion from a modification time to a calendar date. -/
structure Env where
  clock : Nat → Time
  openFails : Str → Option Str
  showDate : Option Int → Str
  fileNonEmpty : Str → Bool
  mtimeDate : Int → Int

/-- The immutable configuration held by the Logging class and copied into the
Logger (logger.py lines 12-48). -/
structure Config where
  logs_dir : Str
  log_format : Str
  timestamp_format : Str
  retention_days : Int
  log_to_file : Bool
  log_to_console : Bool
  line_format : List Piece
  cleanup_on_startup : Bool
deriving DecidableEq

/-- Mutable state of a Logger instance (logger.py lines 122-136): the captured
terminal stream (by id), the non-reentrant threading.Lock, the open file handle
(modelled by its path), the current rotation day and path, and the partial-line
buffer. -/
structure LoggerState where
  terminal : Nat
  lockHeld : Bool
  log_file : Option Str
  current_log_path : Option Str
  current_day : Option Int
  buffer : Str
deriving DecidableEq

/-- One observable I/O event. -/
inductive Ev
  | console (term : Nat) (s : Str)
  | fwrite (path : Str) (s : Str)
  | fclose (path : Str)
  | fremove (path : Str)
deriving DecidableEq

/-- An ordered trace of I/O events. -/
abbrev Trace := List Ev

/-- Outcome of an operation: normal return, blocking forever on the
non-reentrant lock, or an uncaught Python exception carrying its message and
the state at unwind time. -/
inductive Outcome (σ : Type)
  | ok (s : σ)
  | deadlock
  | raised (e : Str) (s : σ)
deriving DecidableEq

def hmsFmt : Str := "%H:%M:%S".toList

def bannerDateFmt : Str := "%A, %d %B %Y".toList

def separator : Str := List.replicate 60 '='

/-- Text of a message that interpolates a bracketed clock rendering in front of
a body, as in the HH:MM:SS prefixes used across logger.py. -/
def stampR (t : Time) (body : Str) : Str :=
  '[' :: (t.render hmsFmt ++ (']' :: ' ' :: body))

/-- The session banner built in logger.py line 159 from the clock reading at
the given tick. -/
def bannerAt (env : Env) (t : Nat) : Str :=
  separator ++ '\n' ::
    ("Logging initiated for ".toList ++ (env.clock t).render bannerDateFmt) ++
      '\n' :: separator ++ ['\n']

/-- The is_internal branch of Logger.write (logger.py lines 163-169), factored
out because rotation re-enters write: acquire the lock (blocking forever when
the calling thread already holds it, since threading.Lock is not reentrant),
echo the raw text to console and to the open file, and return without touching
the buffer. -/
def writeInternal (cfg : Config) (st : LoggerState) (message : Str) :
    Trace × Outcome LoggerState :=
  if st.lockHeld then ([], .deadlock)
  else
    let tr1 : Trace := if cfg.log_to_console then [.console st.terminal message] else []
    let tr2 : Trace :=
      match st.log_file with
      | some p => if cfg.log_to_file then [.fwrite p message] else []
      | none => []
    (tr1 ++ tr2, .ok st)

/-- Logger._get_expected_log_path (logger.py lines 141-143): one clock reading
rendered through log_format, joined to the log directory. -/
def get_expected_log_path (env : Env) (cfg : Config) (tick : Nat) : Str × Nat :=
  (pathJoin cfg.logs_dir ((env.clock tick).render cfg.log_format), tick + 1)

/-- Logger._rotate_log_if_needed (logger.py lines 145-160): no-op when the
current date matches current_day; otherwise close any open file with a console
notice, open the file named by log_format for today in append mode (an open
failure propagates), and write the session banner through the internal write
path. -/
def rotate_log_if_needed (env : Env) (cfg : Config) (tick : Nat) (st : LoggerState) :
    Trace × Nat × Outcome LoggerState :=
  if cfg.log_to_file = false then ([], tick, .ok st)
  else
    let today := (env.clock tick).date
    let tick1 := tick + 1
    if st.current_day = some today then ([], tick1, .ok st)
    else
      let (tr1, tick2) :=
        match st.log_file with
        | some p =>
          (([.fclose p,
             .console st.terminal
               (stampR (env.clock tick1)
                 ("Closed log file for ".toList ++ env.showDate st.current_day) ++ ['\n'])] : Trace),
           tick1 + 1)
        | none => (([] : Trace), tick1)
      let (path, tick3) := get_expected_log_path env cfg tick2
      let st2 := { st with current_day := some today, current_log_path := some path }
      match env.openFails path with
      | some err => (tr1, tick3, .raised err { st2 with lockHeld := false })
      | none =>
        let st3 := { st2 with log_file := some path }
        let tick4 := tick3 + 1
        let (tr2, o) := writeInternal cfg st3 (bannerAt env tick3)
        (tr1 ++ tr2, tick4, o)

/-- The line-extraction loop of Logger.write (lines 178-183): repeatedly split
the buffer at its first newline and append one timestamped formatted line per
extracted line that is non-blank after trimming. The fuel argument, always
instantiated with the newline count of the buffer (which exactly bounds the
iterations), makes the recursion structural. -/
def drainLoop (env : Env) (cfg : Config) (p : Str) : Nat → Nat → Str → Trace × Nat × Str
  | 0, tick, buffer => ([], tick, buffer)
  | fuel + 1, tick, buffer =>
    match splitOnceNL buffer with
    | none => ([], tick, buffer)
    | some (line, rest) =>
      if (pyStrip line).isEmpty then drainLoop env cfg p fuel tick rest
      else
        let ts := (env.clock tick).render cfg.timestamp_format
        let (tr, tick2, buf2) := drainLoop env cfg p fuel (tick + 1) rest
        (.fwrite p (formatLine cfg.line_format ts line ++ ['\n']) :: tr, tick2, buf2)

/-- Logger.write (logger.py lines 162-183): acquire the lock, rotate if file
logging is on, echo the raw message to the console, then feed the partial-line
buffer and flush each complete non-blank line with a fresh timestamp. -/
def write (env : Env) (cfg : Config) (tick : Nat) (st : LoggerState) (message : Str)
    (is_internal : Bool) : Trace × Nat × Outcome LoggerState :=
  if is_internal then
    let (tr, o) := writeInternal cfg st message
    (tr, tick, o)
  else if st.lockHeld then ([], tick, .deadlock)
  else
    let stL := { st with lockHeld := true }
    let r1 :=
      if cfg.log_to_file then rotate_log_if_needed env cfg tick stL
      else ([], tick, .ok stL)
    match r1 with
    | (tr1, tick1, .deadlock) => (tr1, tick1, .deadlock)
    | (tr1, tick1, .raised e st') => (tr1, tick1, .raised e st')
    | (tr1, tick1, .ok st1) =>
      let tr2 : Trace := if cfg.log_to_console then [.console st1.terminal message] else []
      match st1.log_file with
      | some p =>
        if cfg.log_to_file then
          let buf := st1.buffer ++ message
          let (tr3, tick3, buf3) := drainLoop env cfg p (countNL buf) tick1 buf
          (tr1 ++ tr2 ++ tr3, tick3, .ok { st1 with buffer := buf3, lockHeld := false })
        else (tr1 ++ tr2, tick1, .ok { st1 with lockHeld := false })
      | none => (tr1 ++ tr2, tick1, .ok { st1 with lockHeld := false })

/-- Logger.close (logger.py lines 190-199): flush a non-blank buffer residue as
one final timestamped line, then close and discard the file handle. -/
def close (env : Env) (cfg : Config) (tick : Nat) (st : LoggerState) :
    Trace × Nat × LoggerState :=
  let r1 :=
    match st.log_file with
    | some p =>
      if (pyStrip st.buffer).isEmpty then (([] : Trace), tick, st)
      else
        (([.fwrite p (formatLine cfg.line_format ((env.clock tick).render cfg.timestamp_format)
             (pyStrip st.buffer) ++ ['\n'])] : Trace),
         tick + 1, { st with buffer := [] })
    | none => (([] : Trace), tick, st)
  match r1 with
  | (tr1, tick1, st1) =>
    match st1.log_file with
    | some p => (tr1 ++ [.fclose p], tick1, { st1 with log_file := none })
    | none => (tr1, tick1, st1)

/-- Logger.__init__ (logger.py lines 111-139): capture the current stdout as
the terminal, initialize empty state, and rotate immediately when file logging
is enabled. -/
def loggerInit (env : Env) (cfg : Config) (capturedStdout : Nat) (tick : Nat) :
    Trace × Nat × Outcome LoggerState :=
  let st : LoggerState :=
    { terminal := capturedStdout, lockHeld := false, log_file := none,
      current_log_path := none, current_day := none, buffer := [] }
  if cfg.log_to_file then rotate_log_if_needed env cfg tick st
  else ([], tick, .ok st)

/-- What a process stream slot currently refers to: an original terminal stream
(by id) or the single installed Logger instance. -/
inductive SlotRef
  | term (id : Nat)
  | loggerRef
deriving DecidableEq

/-- A directory entry as seen by os.scandir: name, regular-file flag, and
modification time. -/
structure Entry where
  name : Str
  isFile : Bool
  mtime : Int
deriving DecidableEq

/-- The process-level state: the sys.stdout and sys.stderr slots, the state of
the Logger object if one exists, whether the log directory exists, the
directory entries, and the clock tick counter. -/
structure World where
  stdout : SlotRef
  stderr : SlotRef
  loggerSt : Option LoggerState
  dirExists : Bool
  files : List Entry
  tick : Nat
deriving DecidableEq

/-- Sequencing of effectful steps: run the continuation only on a normal
return, accumulating the trace. -/
def andThen (r : Trace × Outcome World) (f : World → Trace × Outcome World) :
    Trace × Outcome World :=
  match r with
  | (tr, .ok w) =>
    match f w with
    | (tr2, o) => (tr ++ tr2, o)
  | (tr, .deadlock) => (tr, .deadlock)
  | (tr, .raised e w) => (tr, .raised e w)

/-- Python print to the current sys.stdout: the text plus a newline goes to the
terminal directly, or through Logger.write when the Logger is installed. -/
def printW (env : Env) (cfg : Config) (w : World) (s : Str) : Trace × Outcome World :=
  match w.stdout with
  | .term i => ([.console i (s ++ ['\n'])], .ok w)
  | .loggerRef =>
    match w.loggerSt with
    | none => ([], .ok w)
    | some st =>
      match write env cfg w.tick st (s ++ ['\n']) false with
      | (tr, t, .ok st') => (tr, .ok { w with loggerSt := some st', tick := t })
      | (tr, _, .deadlock) => (tr, .deadlock)
      | (tr, t, .raised e st') => (tr, .raised e { w with loggerSt := some st', tick := t })

/-- A print whose message is prefixed with a fresh bracketed clock reading, as
in the cleanup and rotation notices. -/
def printStamped (env : Env) (cfg : Config) (w : World) (body : Str) : Trace × Outcome World :=
  printW env cfg { w with tick := w.tick + 1 } (stampR (env.clock w.tick) body)

/-- Whether the sweep deletes a directory entry: a regular file whose
modification date in the configured timezone is strictly before the cutoff
(logger.py lines 92-96). -/
def delP (env : Env) (cutoff : Int) (e : Entry) : Bool :=
  e.isFile && decide (env.mtimeDate e.mtime < cutoff)

/-- The per-entry loop of Logging.cleanup_logs (lines 90-100), iterating over
the scandir snapshot: each regular file strictly older than the cutoff is
removed from the directory and a deletion notice is printed. -/
def cleanupEntries (env : Env) (cfg : Config) (cutoff : Int) :
    World → List Entry → Trace × Outcome World
  | w, [] => ([], .ok w)
  | w, e :: rest =>
    let step : Trace × Outcome World :=
      if delP env cutoff e then
        let w1 := { w with files := w.files.erase e }
        andThen ([.fremove (pathJoin cfg.logs_dir e.name)], .ok w1) fun w2 =>
          printStamped env cfg w2 ("Deleted old log file: ".toList ++ e.name)
      else ([], .ok w)
    andThen step fun w3 => cleanupEntries env cfg cutoff w3 rest

/-- Logging.cleanup_logs (logger.py lines 82-104): announce the sweep, return
immediately when the directory does not exist, otherwise delete every regular
file strictly older than today minus retention_days; a body exception is
caught and reported, and the closing notice always prints. -/
def cleanup_logs (env : Env) (cfg : Config) (w : World) : Trace × Outcome World :=
  let nowT := env.clock w.tick
  let w0 := { w with tick := w.tick + 1 }
  andThen (printW env cfg w0 (stampR nowT "Running daily log cleanup...".toList)) fun w1 =>
    let body : Trace × Outcome World :=
      if w1.dirExists then
        cleanupEntries env cfg (nowT.date - cfg.retention_days) w1 w1.files
      else ([], .ok w1)
    match body with
    | (tr, .ok w2) =>
      match printStamped env cfg w2 "Log cleanup finished.".toList with
      | (tr2, o) => (tr ++ tr2, o)
    | (tr, .deadlock) => (tr, .deadlock)
    | (tr, .raised e w2) =>
      match andThen (printStamped env cfg w2 ("Error during log cleanup: ".toList ++ e))
          (fun w3 => printStamped env cfg w3 "Log cleanup finished.".toList) with
      | (tr2, o) => (tr ++ tr2, o)

/-- Logging.setup (logger.py lines 50-72): directory creation and the optional
startup cleanup happen first; only then is the already-installed check made; a
fresh Logger is constructed and installed into both stream slots otherwise. -/
def setup (env : Env) (cfg : Config) (w : World) : Trace × Outcome World :=
  let pre : Trace × Outcome World :=
    if cfg.log_to_file then
      let w1 := { w with dirExists := true }
      if cfg.cleanup_on_startup then cleanup_logs env cfg w1 else ([], .ok w1)
    else ([], .ok w)
  andThen pre fun w2 =>
    match w2.stdout with
    | .loggerRef => printW env cfg w2 "Logging is already set up.".toList
    | .term i =>
      match loggerInit env cfg i w2.tick with
      | (tr, t, .ok st) =>
        (tr, .ok { w2 with stdout := SlotRef.loggerRef, stderr := SlotRef.loggerRef, loggerSt := some st, tick := t })
      | (tr, _, .deadlock) => (tr, .deadlock)
      | (tr, t, .raised e _) => (tr, .raised e { w2 with tick := t })

/-- Logging.shutdown (logger.py lines 74-80): when a Logger is installed,
restore its captured terminal to both slots, then close it. -/
def shutdown (env : Env) (cfg : Config) (w : World) : Trace × World :=
  match w.stdout with
  | .term _ => ([], w)
  | .loggerRef =>
    match w.loggerSt with
    | none => ([], w)
    | some st =>
      let w1 := { w with stdout := SlotRef.term st.terminal, stderr := SlotRef.term st.terminal }
      match close env cfg w1.tick st with
      | (tr, t, st') => (tr, { w1 with loggerSt := some st', tick := t })

/-- The file-append events of a trace, with their target paths. -/
def fwritesOf (tr : Trace) : List (Str × Str) :=
  tr.filterMap fun e => match e with | .fwrite p s => some (p, s) | _ => none

/-- The file-removal events of a trace. -/
def removesOf (tr : Trace) : List Str :=
  tr.filterMap fun e => match e with | .fremove p => some p | _ => none

/-- The concatenation of all text delivered to console streams in a trace. -/
def consoleTextOf (tr : Trace) : Str :=
  (tr.filterMap fun e => match e with | .console _ s => some s | _ => none).flatten

/-- The message of an uncaught exception outcome, if any. -/
def raisedErr : Outcome World → Option Str
  | .raised e _ => some e
  | _ => none

/-- The complete newline-terminated segments of a string, in order; the fuel is
always the newline count. -/
def completeSegs : Nat → Str → List Str
  | 0, _ => []
  | fuel + 1, s =>
    match splitOnceNL s with
    | none => []
    | some (l, r) => l :: completeSegs fuel r

/-- The residue after removing all complete newline-terminated segments. -/
def remAfter : Nat → Str → Str
  | 0, s => s
  | fuel + 1, s =>
    match splitOnceNL s with
    | none => s
    | some (_, r) => remAfter fuel r

/-- All complete newline-terminated segments of a string. -/
def segsOf (s : Str) : List Str := completeSegs (countNL s) s

/-- The complete segments that are non-blank after trimming. -/
def nonBlankSegs (s : Str) : List Str := (segsOf s).filter fun l => !(pyStrip l).isEmpty

/-- The file lines the drain loop appends for the given segments: one per
segment, formatted through the line template with the clock reading taken at
the moment that segment is flushed to the file. -/
def expectedLines (env : Env) (cfg : Config) (p : Str) : Nat → List Str → Trace
  | _, [] => []
  | tick, seg :: rest =>
    .fwrite p (formatLine cfg.line_format ((env.clock tick).render cfg.timestamp_format) seg
        ++ ['\n'])
      :: expectedLines env cfg p (tick + 1) rest

/-- The target path rotation computes at a given tick. -/
def pathAt (env : Env) (cfg : Config) (t : Nat) : Str :=
  (get_expected_log_path env cfg t).1

/-- Whether an event is a file append. -/
def isFwrite : Ev → Bool
  | .fwrite _ _ => true
  | _ => false

/-- A sequence of external write calls, accumulating the trace; execution stops
at the first call that deadlocks or raises. -/
def writeSeq (env : Env) (cfg : Config) :
    Nat → LoggerState → List Str → Trace × Nat × Outcome LoggerState
  | tick, st, [] => ([], tick, .ok st)
  | tick, st, m :: ms =>
    match write env cfg tick st m false with
    | (tr, t, .ok st') =>
      match writeSeq env cfg t st' ms with
      | (tr2, t2, o) => (tr ++ tr2, t2, o)
    | (tr, t, .deadlock) => (tr, t, .deadlock)
    | (tr, t, .raised e s) => (tr, t, .raised e s)

/-- Erase each listed entry in turn from a directory listing. -/
def eraseAll (init : List Entry) (es : List Entry) : List Entry :=
  es.foldl (fun acc e => acc.erase e) init

/-- A process state with its directory listing and tick replaced. -/
def filesTick (w : World) (fs : List Entry) (t : Nat) : World :=
  { w with files := fs, tick := t }

/-- A process state with the logger installed into both stream slots. -/
def installW (w : World) (st : LoggerState) (t : Nat) : World :=
  { w with stdout := SlotRef.loggerRef, stderr := SlotRef.loggerRef,
           loggerSt := some st, tick := t }

/-- A process state with terminal i restored into both stream slots and the
logger object left in a final state. -/
def restoredW (w : World) (i : Nat) (st2 : LoggerState) (t : Nat) : World :=
  { w with stdout := SlotRef.term i, stderr := SlotRef.term i,
           loggerSt := some st2, tick := t }

/-- A typical line template: a bracketed timestamp slot followed by the message
slot, as in the default line_format of logger.py. -/
def lineFmtA : List Piece := [.lit "[".toList, .timestamp, .lit "] ".toList, .message]

/-- A clock stuck on day 0 that renders every format string as the letter T. -/
def clockCalm : Nat → Time := fun _ => { date := 0, render := fun _ => ['T'] }

/-- A benign environment: day 0, every open succeeds, no file pre-exists. -/
def envA : Env :=
  { clock := clockCalm, openFails := fun _ => none, showDate := fun _ => ['D'],
    fileNonEmpty := fun _ => false, mtimeDate := fun t => t }

/-- A typical configuration with both sinks enabled. -/
def cfgA : Config :=
  { logs_dir := "logs".toList, log_format := "F".toList,
    timestamp_format := "%H:%M:%S".toList, retention_days := 7, log_to_file := true,
    log_to_console := true, line_format := lineFmtA, cleanup_on_startup := false }

/-- A logger with the day-0 file open, empty buffer, lock free. -/
def stA : LoggerState :=
  { terminal := 0, lockHeld := false, log_file := some "logs/T".toList,
    current_log_path := some "logs/T".toList, current_day := some 0, buffer := [] }

/-- The benign environment advanced to day 1, so a logger holding a day-0 file
is due for rotation. -/
def envDay1 : Env :=
  { envA with clock := fun _ => { date := 1, render := fun _ => ['T'] } }

/-- The benign environment, except that every path already holds a non-empty
file. -/
def envNE : Env := { envA with fileNonEmpty := fun _ => true }

/-- The benign environment, except that every open fails with a permission
error. -/
def envFail : Env := { envA with openFails := fun _ => some "Permission denied".toList }

/-- The typical configuration with console output disabled. -/
def cfgNoC : Config := { cfgA with log_to_console := false }

/-- The typical configuration with cleanup on startup enabled. -/
def cfgCU : Config := { cfgA with cleanup_on_startup := true }

/-- A freshly constructed logger state, as built at the top of
Logger.__init__. -/
def stFresh : LoggerState :=
  { terminal := 0, lockHeld := false, log_file := none, current_log_path := none,
    current_day := none, buffer := [] }

/-- An uninstalled process state: distinct terminal streams in the two slots,
no Logger yet, no log directory. -/
def w0 : World :=
  { stdout := SlotRef.term 0, stderr := SlotRef.term 1, loggerSt := none,
    dirExists := false, files := [], tick := 0 }

/-- The benign environment moved to day 10, for the retention example. -/
def envSweep : Env :=
  { envA with clock := fun _ => { date := 10, render := fun _ => ['T'] } }

/-- Four regular files with modification dates today, today minus 6, 7 and 8
days (today being day 10 and mtimeDate the identity). -/
def filesEx : List Entry :=
  [{ name := "a".toList, isFile := true, mtime := 10 },
   { name := "b".toList, isFile := true, mtime := 4 },
   { name := "c".toList, isFile := true, mtime := 3 },
   { name := "d".toList, isFile := true, mtime := 2 }]

/-- A process state at startup with the example directory in place. -/
def wSweep : World :=
  { stdout := SlotRef.term 0, stderr := SlotRef.term 1, loggerSt := none,
    dirExists := true, files := filesEx, tick := 0 }

/-- A logger due for closing with a non-blank residue in its buffer. -/
def stResidue : LoggerState := { stA with buffer := "  tail  ".toList }

/-- A process state with the Logger installed and a buffered residue. -/
def wInst : World :=
  { stdout := SlotRef.loggerRef, stderr := SlotRef.loggerRef, loggerSt := some stResidue,
    dirExists := true, files := [], tick := 0 }

/-- A process state with the Logger installed and an empty buffer. -/
def wInstB : World :=
  { stdout := SlotRef.loggerRef, stderr := SlotRef.loggerRef, loggerSt := some stA,
    dirExists := true, files := [], tick := 0 }

theorem splitOnceNL_none_countNL (s : Str) (h : splitOnceNL s = none) : countNL s = 0 := by
  induction s with
  | nil => rfl
  | cons c r ih =>
    by_cases hc : c = '\n'
    · simp [splitOnceNL, hc] at h
    · simp only [splitOnceNL, if_neg hc] at h
      cases hr : splitOnceNL r with
      | none => simp [countNL, hc, ih hr]
      | some pr =>
        obtain ⟨l, rest⟩ := pr
        rw [hr] at h
        simp at h

theorem splitOnceNL_some_countNL (s l r : Str) (h : splitOnceNL s = some (l, r)) :
    countNL s = countNL r + 1 := by
  induction s generalizing l with
  | nil => simp [splitOnceNL] at h
  | cons c cs ih =>
    by_cases hc : c = '\n'
    · rw [show splitOnceNL (c :: cs) = some ([], cs) by simp [splitOnceNL, hc]] at h
      have h2 : cs = r := by simpa using congrArg (fun q => q.map Prod.snd) h
      subst h2
      simp [countNL, hc]
      omega
    · simp only [splitOnceNL, if_neg hc] at h
      cases hr : splitOnceNL cs with
      | none => rw [hr] at h; simp at h
      | some pr =>
        obtain ⟨l2, rest2⟩ := pr
        rw [hr] at h
        simp at h
        obtain ⟨_, h2⟩ := h
        subst h2
        simp [countNL, hc, ih _ hr]

/-- The drain loop of Logger.write, run with enough fuel, appends exactly one
formatted line per complete non-blank segment of the buffer, timestamped with
the consecutive clock readings starting at the entry tick, and leaves the
residue after the last newline in the buffer. -/
theorem drainLoop_spec (env : Env) (cfg : Config) (p : Str) :
    ∀ fuel tick buffer, countNL buffer ≤ fuel →
      drainLoop env cfg p fuel tick buffer
        = (expectedLines env cfg p tick
             ((completeSegs (countNL buffer) buffer).filter fun l => !(pyStrip l).isEmpty),
           tick + ((completeSegs (countNL buffer) buffer).filter fun l =>
             !(pyStrip l).isEmpty).length,
           remAfter (countNL buffer) buffer) := by
  intro fuel
  induction fuel with
  | zero =>
    intro tick buffer h
    have h0 : countNL buffer = 0 := Nat.le_zero.mp h
    simp [drainLoop, h0, completeSegs, remAfter, expectedLines]
  | succ fuel ih =>
    intro tick buffer h
    cases hs : splitOnceNL buffer with
    | none =>
      have h0 : countNL buffer = 0 := splitOnceNL_none_countNL buffer hs
      simp [drainLoop, hs, h0, completeSegs, remAfter, expectedLines]
    | some pr =>
      obtain ⟨line, rest⟩ := pr
      have hc : countNL buffer = countNL rest + 1 := splitOnceNL_some_countNL _ _ _ hs
      have hle : countNL rest ≤ fuel := by omega
      rw [hc]
      by_cases hb : (pyStrip line).isEmpty
      · simp [drainLoop, hs, hb, completeSegs, remAfter, ih tick rest hle, hc]
      · simp [drainLoop, hs, hb, completeSegs, remAfter, expectedLines, ih (tick + 1) rest hle,
          hc]
        omega

/-- Every event emitted by the drain loop is a file append. -/
theorem drainLoop_fwrites (env : Env) (cfg : Config) (p : Str) :
    ∀ fuel tick buffer, ∀ e ∈ (drainLoop env cfg p fuel tick buffer).1, isFwrite e = true := by
  intro fuel
  induction fuel with
  | zero => intro tick buffer e he; simp [drainLoop] at he
  | succ fuel ih =>
    intro tick buffer e he
    cases hs : splitOnceNL buffer with
    | none => simp [drainLoop, hs] at he
    | some pr =>
      obtain ⟨line, rest⟩ := pr
      rcases hdl : drainLoop env cfg p fuel tick rest with ⟨trA, tA, bA⟩
      rcases hdl2 : drainLoop env cfg p fuel (tick + 1) rest with ⟨trB, tB, bB⟩
      by_cases hb : (pyStrip line).isEmpty
      · have hred : (drainLoop env cfg p (fuel + 1) tick buffer).1 = trA := by
          simp [drainLoop, hs, hb, hdl]
        rw [hred] at he
        exact ih tick rest e (by rw [hdl]; exact he)
      · have hred : (drainLoop env cfg p (fuel + 1) tick buffer).1
            = Ev.fwrite p (formatLine cfg.line_format
                ((env.clock tick).render cfg.timestamp_format) line ++ ['\n']) :: trB := by
          simp [drainLoop, hs, hb, hdl2]
        rw [hred] at he
        rcases List.mem_cons.mp he with he | he
        · subst he; rfl
        · exact ih (tick + 1) rest e (by rw [hdl2]; exact he)

theorem consoleTextOf_append (a b : Trace) :
    consoleTextOf (a ++ b) = consoleTextOf a ++ consoleTextOf b := by
  simp [consoleTextOf]

theorem consoleTextOf_all_fwrite (tr : Trace) (h : ∀ e ∈ tr, isFwrite e = true) :
    consoleTextOf tr = [] := by
  induction tr with
  | nil => rfl
  | cons e tr ih =>
    have he := h e (List.mem_cons_self e tr)
    cases e with
    | console t s => simp [isFwrite] at he
    | fwrite p s =>
      have := ih fun x hx => h x (List.mem_cons_of_mem _ hx)
      simpa [consoleTextOf] using this
    | fclose p =>
      simp [isFwrite] at he
    | fremove p =>
      simp [isFwrite] at he

/-- Logger.write in the external path, when the current date matches
current_day so no rotation is triggered: the message is echoed verbatim to the
captured terminal exactly when console output is enabled, every other emitted
event is a file append, the call returns normally, and only the buffer field of
the state changes. -/
theorem write_norot (env : Env) (cfg : Config) (tick : Nat) (st : LoggerState) (m : Str)
    (hl : st.lockHeld = false) (hd : st.current_day = some ((env.clock tick).date)) :
    ∃ ftr b t,
      write env cfg tick st m false
        = ((if cfg.log_to_console then [Ev.console st.terminal m] else []) ++ ftr, t,
           Outcome.ok { st with buffer := b })
      ∧ ∀ e ∈ ftr, isFwrite e = true := by
  by_cases hf : cfg.log_to_file
  · cases hlf : st.log_file with
    | some p =>
      rcases hdl : drainLoop env cfg p (countNL (st.buffer ++ m)) (tick + 1) (st.buffer ++ m)
        with ⟨tr3, t3, b3⟩
      refine ⟨tr3, b3, t3, ?_, ?_⟩
      · simp [write, rotate_log_if_needed, hf, hd, hlf, hdl, hl]
      · intro e he
        exact drainLoop_fwrites env cfg p _ _ _ e (by rw [hdl]; exact he)
    | none =>
      refine ⟨[], st.buffer, tick + 1, ?_, by intro e he; simp at he⟩
      simp [write, rotate_log_if_needed, hf, hd, hlf, hl]
  · refine ⟨[], st.buffer, tick, ?_, by intro e he; simp at he⟩
    cases hlf : st.log_file with
    | some p => simp [write, rotate_log_if_needed, hf, hd, hlf, hl]
    | none => simp [write, rotate_log_if_needed, hf, hd, hlf, hl]

/-- Helper for claim C2: over a sequence of external writes during which the
calendar date never moves off the current rotation day, the console passthrough
receives exactly the concatenation of the arguments, and every call returns. -/
theorem writeSeq_echo (env : Env) (cfg : Config) (d : Int)
    (hclk : ∀ n, (env.clock n).date = d) (hc : cfg.log_to_console = true) :
    ∀ (msgs : List Str) (tick : Nat) (st : LoggerState),
      st.current_day = some d → st.lockHeld = false →
      consoleTextOf (writeSeq env cfg tick st msgs).1 = msgs.flatten
      ∧ ∃ t st', (writeSeq env cfg tick st msgs).2 = (t, Outcome.ok st') := by
  intro msgs
  induction msgs with
  | nil =>
    intro tick st hd hl
    exact ⟨rfl, tick, st, rfl⟩
  | cons m ms ih =>
    intro tick st hd hl
    obtain ⟨ftr, b, t, heq, hftr⟩ := write_norot env cfg tick st m hl (by rw [hd, hclk])
    obtain ⟨ihc, t2, st2, iho⟩ := ih t { st with buffer := b } (by simpa using hd) (by simpa using hl)
    rcases hseq : writeSeq env cfg t { st with buffer := b } ms with ⟨trS, tS, oS⟩
    rw [hseq] at ihc iho
    simp only at ihc iho
    constructor
    · have : (writeSeq env cfg tick st (m :: ms)).1
          = ((if cfg.log_to_console then [Ev.console st.terminal m] else []) ++ ftr) ++ trS := by
        simp [writeSeq, heq, hseq]
      rw [this, consoleTextOf_append, consoleTextOf_append,
        consoleTextOf_all_fwrite ftr hftr, ihc]
      simp [hc, consoleTextOf]
    · refine ⟨t2, st2, ?_⟩
      have : (writeSeq env cfg tick st (m :: ms)).2 = (tS, oS) := by
        simp [writeSeq, heq, hseq]
      rw [this, ← iho]

/-- Claim C1, counterexample: the claim says the message slot receives the
segment trimmed of whitespace, but Logger.write (line 182) formats the segment
as written; a write of two spaces, hi, two spaces and a newline lands in the
file with its surrounding whitespace intact, not as the trimmed line the claim
predicts. -/
theorem C1_counterexample :
    fwritesOf (write envA cfgA 0 stA "  hi  \n".toList false).1
      = [("logs/T".toList, "[T]   hi  \n".toList)]
    ∧ formatLine cfgA.line_format "T".toList (pyStrip "  hi  ".toList) ++ ['\n']
      = "[T] hi\n".toList
    ∧ ("[T]   hi  \n".toList : Str) ≠ "[T] hi\n".toList := by
  refine ⟨by decide, by decide, by decide⟩

/-- Claim C1 (amended): for a single external write on an open file with an
empty buffer and no rotation due, exactly one timestamped line is appended per
newline-delimited segment that is non-blank after trimming — blank segments
produce zero file lines — each line equal to the line template with the message
slot replaced by the segment as written (not trimmed; trimming only decides
blankness) and the timestamp slot by the formatted clock reading at the moment
that line is flushed to the file. -/
theorem C1_file_lines (env : Env) (cfg : Config) (tick : Nat) (st : LoggerState) (m p : Str)
    (hl : st.lockHeld = false) (hbuf : st.buffer = [])
    (hf : cfg.log_to_file = true) (hfile : st.log_file = some p)
    (hd : st.current_day = some ((env.clock tick).date)) :
    write env cfg tick st m false
      = ((if cfg.log_to_console then [Ev.console st.terminal m] else [])
          ++ expectedLines env cfg p (tick + 1) (nonBlankSegs m),
         tick + 1 + (nonBlankSegs m).length,
         Outcome.ok { st with buffer := remAfter (countNL m) m }) := by
  have hdr := drainLoop_spec env cfg p (countNL m) (tick + 1) m (Nat.le_refl _)
  simp [write, rotate_log_if_needed, hf, hd, hfile, hl, hbuf, hdr, nonBlankSegs, segsOf]

/-- Claim C1, witness: a single write with two non-blank segments, one blank
segment and a trailing fragment produces exactly the two expected file lines
and retains the fragment in the buffer. -/
theorem C1_witness :
    stA.buffer = [] ∧
    write envA cfgA 0 stA "a\n \nb\nc".toList false
      = ((if cfgA.log_to_console then [Ev.console stA.terminal "a\n \nb\nc".toList] else [])
          ++ expectedLines envA cfgA "logs/T".toList (0 + 1) (nonBlankSegs "a\n \nb\nc".toList),
         0 + 1 + (nonBlankSegs "a\n \nb\nc".toList).length,
         Outcome.ok { stA with buffer := remAfter (countNL "a\n \nb\nc".toList) "a\n \nb\nc".toList }) :=
  ⟨rfl, C1_file_lines envA cfgA 0 stA "a\n \nb\nc".toList "logs/T".toList rfl rfl rfl rfl rfl⟩

/-- Claim C2, counterexample: a write issued when the calendar day has moved
past the current rotation day delivers a rotation notice to the captured
console stream instead of the argument, and then deadlocks before echoing, so
the concatenation of console deliveries differs from the concatenation of the
write arguments. -/
theorem C2_counterexample :
    consoleTextOf (write envDay1 cfgA 0 stA "hello\n".toList false).1 ≠ "hello\n".toList
    ∧ (write envDay1 cfgA 0 stA "hello\n".toList false).2.2 = Outcome.deadlock := by
  refine ⟨by decide, by decide⟩

/-- Claim C2 (amended): for every sequence of external write calls with console
output enabled, provided the calendar date stays on the rotation day recorded
in current_day throughout (so no rotation is triggered), the concatenation of
all text delivered to the captured console stream equals the concatenation of
the write arguments in call order, each passed through unmodified, and every
call returns normally. -/
theorem C2_echo_exact (env : Env) (cfg : Config) (d : Int) (msgs : List Str) (tick : Nat)
    (st : LoggerState) (hclk : ∀ n, (env.clock n).date = d) (hc : cfg.log_to_console = true)
    (hd : st.current_day = some d) (hl : st.lockHeld = false) :
    consoleTextOf (writeSeq env cfg tick st msgs).1 = msgs.flatten
    ∧ ∃ t st', (writeSeq env cfg tick st msgs).2 = (t, Outcome.ok st') :=
  writeSeq_echo env cfg d hclk hc msgs tick st hd hl

/-- Claim C2, witness: two writes, one a bare fragment and one ending in a
newline, echo exactly to the console in call order. -/
theorem C2_witness :
    cfgA.log_to_console = true ∧
    (consoleTextOf (writeSeq envA cfgA 0 stA ["ab".toList, "c\n".toList]).1
        = (["ab".toList, "c\n".toList] : List Str).flatten
      ∧ ∃ t st', (writeSeq envA cfgA 0 stA ["ab".toList, "c\n".toList]).2
          = (t, Outcome.ok st')) :=
  ⟨rfl, C2_echo_exact envA cfgA 0 ["ab".toList, "c\n".toList] 0 stA (fun _ => rfl) rfl rfl rfl⟩

/-- Claim C3: a write issued when the current date differs from the rotation
day recorded in current_day re-enters Logger.write through the rotation banner
while the calling thread already holds the non-reentrant threading.Lock, so the
call blocks forever instead of completing. -/
theorem C3_day_change_write_deadlocks :
    (write envDay1 cfgA 0 stA "x\n".toList false).2.2 = Outcome.deadlock := by decide

/-- Claim C4, counterexample: rotation performs no existence or emptiness check
on the target file; rotating into a path that already holds a non-empty file
still appends the session banner, contradicting the claim that an existing
non-empty file receives no banner. -/
theorem C4_counterexample :
    envNE.fileNonEmpty (pathAt envNE cfgA 1) = true
    ∧ fwritesOf (rotate_log_if_needed envNE cfgA 0 stFresh).1
        = [(pathAt envNE cfgA 1, bannerAt envNE 2)] := by
  refine ⟨by decide, by decide⟩

/-- Claim C4 (amended): rotation never inspects the target file; after opening
it in append mode it always writes the session banner — verbatim, bypassing the
line template and timestamping — to the file, and to the console exactly when
console output is enabled, even when the target file already exists and is
non-empty. -/
theorem C4_banner_unconditional (env : Env) (cfg : Config) (tick : Nat) (st : LoggerState)
    (hf : cfg.log_to_file = true) (hl : st.lockHeld = false) (hlf : st.log_file = none)
    (hne : st.current_day ≠ some ((env.clock tick).date))
    (hopen : env.openFails (pathAt env cfg (tick + 1)) = none)
    (hfull : env.fileNonEmpty (pathAt env cfg (tick + 1)) = true) :
    rotate_log_if_needed env cfg tick st
      = ((if cfg.log_to_console then [Ev.console st.terminal (bannerAt env (tick + 2))] else [])
          ++ [Ev.fwrite (pathAt env cfg (tick + 1)) (bannerAt env (tick + 2))],
         tick + 3,
         Outcome.ok { st with current_day := some ((env.clock tick).date),
                              current_log_path := some (pathAt env cfg (tick + 1)),
                              log_file := some (pathAt env cfg (tick + 1)) }) := by
  simp only [pathAt, get_expected_log_path] at hopen
  simp [rotate_log_if_needed, hf, hlf, hne, get_expected_log_path, pathAt, writeInternal, hl,
    hopen, Nat.add_assoc]

/-- Claim C4, witness: rotating a fresh logger in an environment where every
path already holds a non-empty file still writes the banner to console and
file. -/
theorem C4_witness :
    envNE.fileNonEmpty (pathAt envNE cfgA 1) = true ∧
    rotate_log_if_needed envNE cfgA 0 stFresh
      = ((if cfgA.log_to_console then [Ev.console stFresh.terminal (bannerAt envNE 2)] else [])
          ++ [Ev.fwrite (pathAt envNE cfgA 1) (bannerAt envNE 2)],
         0 + 3,
         Outcome.ok { stFresh with current_day := some ((envNE.clock 0).date),
                                   current_log_path := some (pathAt envNE cfgA 1),
                                   log_file := some (pathAt envNE cfgA 1) }) :=
  ⟨rfl, C4_banner_unconditional envNE cfgA 0 stFresh rfl rfl rfl (by decide) rfl rfl⟩

/-- Claim C5, counterexample: installing over an unwritable path raises the
open error out of setup with an empty trace — nothing is surfaced through the
console passthrough and console-only operation is not continued, contradicting
the claim that the failure is caught and reported. -/
theorem C5_counterexample :
    (setup envFail cfgA w0).1 = []
    ∧ raisedErr (setup envFail cfgA w0).2 = some "Permission denied".toList := by
  refine ⟨by decide, by decide⟩

/-- Claim C5 (amended): when opening the log file fails during rotation, the
exception propagates uncaught out of the write (and likewise out of install,
which runs the same rotation): the call raises with an empty trace — no
sink-unavailable notice on the console, no echo of the message, and no
console-only continuation inside the call. -/
theorem C5_open_error_propagates (env : Env) (cfg : Config) (tick : Nat) (st : LoggerState)
    (m err : Str) (hf : cfg.log_to_file = true) (hl : st.lockHeld = false)
    (hlf : st.log_file = none) (hne : st.current_day ≠ some ((env.clock tick).date))
    (hopen : env.openFails (pathAt env cfg (tick + 1)) = some err) :
    write env cfg tick st m false
      = ([], tick + 2,
         Outcome.raised err
           { st with lockHeld := false, current_day := some ((env.clock tick).date),
                     current_log_path := some (pathAt env cfg (tick + 1)) }) := by
  simp only [pathAt, get_expected_log_path] at hopen
  simp [write, rotate_log_if_needed, hf, hl, hlf, hne, get_expected_log_path, pathAt, hopen,
    Nat.add_assoc]

/-- Claim C5, witness: a write issued against a permission-denied path raises
the error to the caller with an empty trace. -/
theorem C5_witness :
    envFail.openFails (pathAt envFail cfgA 1) = some "Permission denied".toList ∧
    write envFail cfgA 0 stFresh "x".toList false
      = ([], 0 + 2,
         Outcome.raised "Permission denied".toList
           { stFresh with lockHeld := false, current_day := some ((envFail.clock 0).date),
                          current_log_path := some (pathAt envFail cfgA 1) }) :=
  ⟨rfl, C5_open_error_propagates envFail cfgA 0 stFresh "x".toList "Permission denied".toList
     rfl rfl rfl (by decide) rfl⟩

/-- Claim C10: whenever rotation closes a previous day open file, the Closed
log file notice is printed to the captured terminal stream unconditionally —
here stated with the console toggle disabled — so disabling console output does
not keep the rotation notice off the console. -/
theorem C10_close_notice_ignores_console_toggle (env : Env) (cfg : Config) (tick : Nat)
    (st : LoggerState) (p : Str) (d : Int) (hf : cfg.log_to_file = true)
    (hc : cfg.log_to_console = false) (hlf : st.log_file = some p)
    (hd : st.current_day = some d) (hne : (env.clock tick).date ≠ d) :
    ∃ rest, (rotate_log_if_needed env cfg tick st).1
      = Ev.fclose p :: Ev.console st.terminal
          (stampR (env.clock (tick + 1))
            ("Closed log file for ".toList ++ env.showDate (some d)) ++ ['\n']) :: rest := by
  have hdx : ¬ d = (env.clock tick).date := fun h => hne h.symm
  cases ho : env.openFails (pathJoin cfg.logs_dir ((env.clock (tick + 2)).render cfg.log_format))
    with
  | some err =>
    refine ⟨[], ?_⟩
    simp [rotate_log_if_needed, hf, hlf, hdx, hd, get_expected_log_path, pathAt, ho,
      Nat.add_assoc]
  | none =>
    by_cases hlk : st.lockHeld
    · refine ⟨[], ?_⟩
      simp [rotate_log_if_needed, hf, hlf, hdx, hd, get_expected_log_path, pathAt, ho,
        writeInternal, hlk, Nat.add_assoc]
    · refine ⟨[Ev.fwrite (pathAt env cfg (tick + 2)) (bannerAt env (tick + 3))], ?_⟩
      simp [rotate_log_if_needed, hf, hlf, hdx, hd, get_expected_log_path, pathAt, ho,
        writeInternal, hlk, hc, Nat.add_assoc]

/-- Claim C10, witness: with console output disabled, a day-change rotation of
an open day-0 file still sends the close notice to the captured terminal. -/
theorem C10_witness :
    cfgNoC.log_to_console = false ∧
    ∃ rest, (rotate_log_if_needed envDay1 cfgNoC 0 stA).1
      = Ev.fclose "logs/T".toList :: Ev.console stA.terminal
          (stampR (envDay1.clock 1)
            ("Closed log file for ".toList ++ envDay1.showDate (some 0)) ++ ['\n']) :: rest :=
  ⟨rfl, C10_close_notice_ignores_console_toggle envDay1 cfgNoC 0 stA "logs/T".toList 0
     rfl rfl rfl rfl (by decide)⟩

theorem eraseAll_cons (init : List Entry) (e : Entry) (es : List Entry) :
    eraseAll init (e :: es) = eraseAll (init.erase e) es := rfl

theorem eraseAll_avoid (es : List Entry) :
    ∀ (a : Entry) (l : List Entry), a ∉ es → eraseAll (a :: l) es = a :: eraseAll l es := by
  induction es with
  | nil => intro a l _; rfl
  | cons e es ih =>
    intro a l h
    have hne : e ≠ a := by
      intro hh
      exact h (by rw [hh]; exact List.mem_cons_self a es)
    rw [eraseAll_cons, eraseAll_cons, List.erase_cons_tail (by simp [Ne.symm hne])]
    exact ih a (l.erase e) fun hm => h (List.mem_cons_of_mem e hm)

/-- Erasing from a duplicate-free listing exactly the entries selected by a
predicate leaves exactly the entries the predicate rejects. -/
theorem eraseAll_filter (l : List Entry) (p : Entry → Bool) (h : l.Nodup) :
    eraseAll l (l.filter p) = l.filter fun x => !(p x) := by
  induction l with
  | nil => rfl
  | cons a l ih =>
    obtain ⟨hna, hnd⟩ := List.nodup_cons.mp h
    by_cases hp : p a = true
    · rw [List.filter_cons_of_pos hp, eraseAll_cons, List.erase_cons_head, ih hnd,
        List.filter_cons_of_neg (by simp [hp])]
    · rw [List.filter_cons_of_neg hp,
        eraseAll_avoid _ a l (fun hm => hna (List.mem_of_mem_filter hm)), ih hnd,
        List.filter_cons_of_pos (by simp [hp])]

/-- The entry loop of the sweep, run with the console as the active stdout:
it returns normally, the directory loses exactly the snapshot entries selected
by the deletion predicate, and the removal events list exactly their paths. -/
theorem cleanupEntries_term (env : Env) (cfg : Config) (cutoff : Int) (i : Nat) :
    ∀ (fs : List Entry) (w : World), w.stdout = SlotRef.term i →
      ∃ tr t, cleanupEntries env cfg cutoff w fs
        = (tr, Outcome.ok (filesTick w (eraseAll w.files (fs.filter (delP env cutoff))) t))
        ∧ removesOf tr
          = (fs.filter (delP env cutoff)).map fun e => pathJoin cfg.logs_dir e.name := by
  intro fs
  induction fs with
  | nil =>
    intro w _
    exact ⟨[], w.tick, rfl, rfl⟩
  | cons e rest ih =>
    intro w hw
    obtain ⟨so, se, ls, de, fl, tk⟩ := w
    replace hw : so = SlotRef.term i := hw
    subst hw
    by_cases hdel : delP env cutoff e = true
    · obtain ⟨tr2, t2, heq, hrem⟩ :=
        ih ⟨SlotRef.term i, se, ls, de, fl.erase e, tk + 1⟩ rfl
      refine ⟨[Ev.fremove (pathJoin cfg.logs_dir e.name),
               Ev.console i (stampR (env.clock tk)
                 ("Deleted old log file: ".toList ++ e.name) ++ ['\n'])] ++ tr2, t2, ?_, ?_⟩
      · simp [cleanupEntries, hdel, andThen, printStamped, printW, heq, eraseAll_cons,
          List.filter_cons_of_pos hdel, filesTick]
      · simp [removesOf, List.filter_cons_of_pos hdel]
        simpa [removesOf] using hrem
    · obtain ⟨tr2, t2, heq, hrem⟩ := ih ⟨SlotRef.term i, se, ls, de, fl, tk⟩ rfl
      refine ⟨tr2, t2, ?_, ?_⟩
      · simp [cleanupEntries, hdel, andThen, heq, List.filter_cons_of_neg hdel, filesTick]
      · rw [List.filter_cons_of_neg hdel]
        exact hrem

/-- Logging.cleanup_logs, run with the console as the active stdout: it returns
normally; when the directory exists the listing loses exactly the entries the
deletion predicate selects and their paths are the removal events; when the
directory does not exist nothing is removed. -/
theorem cleanup_logs_term (env : Env) (cfg : Config) (i : Nat) (w : World)
    (hw : w.stdout = SlotRef.term i) :
    ∃ tr t, cleanup_logs env cfg w
      = (tr, Outcome.ok (filesTick w
          (if w.dirExists then
              eraseAll w.files
                (w.files.filter (delP env ((env.clock w.tick).date - cfg.retention_days)))
            else w.files) t))
      ∧ removesOf tr
        = if w.dirExists then
            (w.files.filter (delP env ((env.clock w.tick).date - cfg.retention_days))).map
              fun e => pathJoin cfg.logs_dir e.name
          else [] := by
  obtain ⟨so, se, ls, de, fl, tk⟩ := w
  replace hw : so = SlotRef.term i := hw
  subst hw
  obtain ⟨tr2, t2, heq, hrem⟩ :=
    cleanupEntries_term env cfg ((env.clock tk).date - cfg.retention_days) i
      fl ⟨SlotRef.term i, se, ls, de, fl, tk + 1⟩ rfl
  by_cases hdir : de = true
  · subst hdir
    refine ⟨Ev.console i (stampR (env.clock tk) "Running daily log cleanup...".toList ++ ['\n'])
        :: (tr2 ++ [Ev.console i (stampR (env.clock t2) "Log cleanup finished.".toList
            ++ ['\n'])]), t2 + 1, ?_, ?_⟩
    · simp [cleanup_logs, andThen, printW, heq, printStamped, filesTick]
    · simp [removesOf]
      simpa [removesOf] using hrem
  · replace hdir : de = false := by simpa using hdir
    subst hdir
    refine ⟨[Ev.console i (stampR (env.clock tk) "Running daily log cleanup...".toList ++ ['\n']),
        Ev.console i (stampR (env.clock (tk + 1)) "Log cleanup finished.".toList ++ ['\n'])],
        tk + 2, ?_, ?_⟩
    · simp [cleanup_logs, andThen, printW, printStamped, filesTick, Nat.add_assoc]
    · simp [removesOf]

/-- Claim C6: the retention sweep deletes exactly the regular files whose
modification time, converted to a date in the configured timezone, is strictly
earlier than today minus retention_days — the boundary file is kept — and a
nonexistent directory causes an immediate return with no deletions and no
error. -/
theorem C6_retention_sweep (env : Env) (cfg : Config) (w : World) (i : Nat)
    (hw : w.stdout = SlotRef.term i) (hnd : w.files.Nodup) :
    ∃ tr t, cleanup_logs env cfg w
      = (tr, Outcome.ok (filesTick w
          (if w.dirExists then
              w.files.filter
                (fun e => !(delP env ((env.clock w.tick).date - cfg.retention_days) e))
            else w.files) t))
      ∧ removesOf tr
        = if w.dirExists then
            (w.files.filter (delP env ((env.clock w.tick).date - cfg.retention_days))).map
              fun e => pathJoin cfg.logs_dir e.name
          else [] := by
  obtain ⟨tr, t, heq, hrem⟩ := cleanup_logs_term env cfg i w hw
  refine ⟨tr, t, ?_, hrem⟩
  rw [heq, eraseAll_filter _ _ hnd]

/-- Claim C6, witness: with retention 7 and files dated today, today minus 6,
today minus 7 and today minus 8 (today being day 10), the deletion predicate
selects exactly the today-minus-8 file, the boundary file is kept, and the
sweep deletes exactly that file. -/
theorem C6_witness :
    (filesEx.filter (delP envSweep ((envSweep.clock 0).date - cfgA.retention_days))).map
        (fun e => pathJoin cfgA.logs_dir e.name)
      = [pathJoin cfgA.logs_dir "d".toList] ∧
    ∃ tr t, cleanup_logs envSweep cfgA wSweep
      = (tr, Outcome.ok (filesTick wSweep
          (if wSweep.dirExists then
              wSweep.files.filter
                (fun e => !(delP envSweep
                  ((envSweep.clock wSweep.tick).date - cfgA.retention_days) e))
            else wSweep.files) t))
      ∧ removesOf tr
        = if wSweep.dirExists then
            (wSweep.files.filter
              (delP envSweep ((envSweep.clock wSweep.tick).date - cfgA.retention_days))).map
              fun e => pathJoin cfgA.logs_dir e.name
          else [] :=
  ⟨by decide, C6_retention_sweep envSweep cfgA wSweep 0 rfl (by decide)⟩

/-- A print through the installed logger, when the calendar date stays on the
rotation day: it returns normally and changes nothing but the logger buffer and
the tick. -/
theorem printW_inst (env : Env) (cfg : Config) (d : Int) (st0 : LoggerState)
    (hclk : ∀ n, (env.clock n).date = d) (hl : st0.lockHeld = false)
    (hd : st0.current_day = some d) (w : World) (b m : Str)
    (hw : w.stdout = SlotRef.loggerRef) (hst : w.loggerSt = some { st0 with buffer := b }) :
    ∃ tr w2 b2, printW env cfg w m = (tr, Outcome.ok w2)
      ∧ w2.stdout = w.stdout ∧ w2.stderr = w.stderr ∧ w2.dirExists = w.dirExists
      ∧ w2.files = w.files ∧ w2.loggerSt = some { st0 with buffer := b2 } := by
  obtain ⟨ftr, b2, t, heq, _⟩ :=
    write_norot env cfg w.tick { st0 with buffer := b } (m ++ ['\n']) (by simpa using hl)
      (by simp [hd, hclk])
  refine ⟨(if cfg.log_to_console then [Ev.console st0.terminal (m ++ ['\n'])] else []) ++ ftr,
    { w with loggerSt := some { st0 with buffer := b2 }, tick := t }, b2,
    ?_, by simp, by simp, by simp, by simp, by simp⟩
  simp [printW, hw, hst, heq]

/-- The entry loop of the sweep run while the logger is installed and no
rotation is due: it returns normally and preserves the stream slots, the
directory flag and the identity of the installed logger. -/
theorem cleanupEntries_inst (env : Env) (cfg : Config) (cutoff : Int) (d : Int)
    (st0 : LoggerState) (hclk : ∀ n, (env.clock n).date = d) (hl : st0.lockHeld = false)
    (hd : st0.current_day = some d) :
    ∀ (fs : List Entry) (w : World) (b : Str), w.stdout = SlotRef.loggerRef →
      w.loggerSt = some { st0 with buffer := b } →
      ∃ tr w2 b2, cleanupEntries env cfg cutoff w fs = (tr, Outcome.ok w2)
        ∧ w2.stdout = SlotRef.loggerRef ∧ w2.stderr = w.stderr ∧ w2.dirExists = w.dirExists
        ∧ w2.loggerSt = some { st0 with buffer := b2 } := by
  intro fs
  induction fs with
  | nil =>
    intro w b hw hst
    exact ⟨[], w, b, rfl, hw, rfl, rfl, hst⟩
  | cons e rest ih =>
    intro w b hw hst
    by_cases hdel : delP env cutoff e = true
    · obtain ⟨tr1, w2, b2, heq1, hw2, hse2, hde2, _, hst2⟩ :=
        printW_inst env cfg d st0 hclk hl hd
          { w with files := w.files.erase e, tick := w.tick + 1 } b
          (stampR (env.clock w.tick) ("Deleted old log file: ".toList ++ e.name))
          (by simpa using hw) (by simpa using hst)
      replace hw2 : w2.stdout = SlotRef.loggerRef := by rw [hw2]; exact hw
      replace hse2 : w2.stderr = w.stderr := by rw [hse2]
      replace hde2 : w2.dirExists = w.dirExists := by rw [hde2]
      have hstep : printStamped env cfg { w with files := w.files.erase e }
          ("Deleted old log file: ".toList ++ e.name) = (tr1, Outcome.ok w2) := heq1
      obtain ⟨tr2, w3, b3, heq2, hw3, hse3, hde3, hst3⟩ := ih w2 b2 hw2 hst2
      simp at hstep
      refine ⟨[Ev.fremove (pathJoin cfg.logs_dir e.name)] ++ tr1 ++ tr2, w3, b3, ?_, hw3,
        by rw [hse3, hse2], by rw [hde3, hde2], hst3⟩
      simp [cleanupEntries, hdel, andThen, hstep, heq2]
    · obtain ⟨tr2, w3, b3, heq2, hw3, hse3, hde3, hst3⟩ := ih w b hw hst
      exact ⟨tr2, w3, b3, by simp [cleanupEntries, hdel, andThen, heq2], hw3, hse3, hde3, hst3⟩

/-- Logging.cleanup_logs run while the logger is installed and no rotation is
due: it returns normally and preserves the stream slots, the directory flag and
the identity of the installed logger. -/
theorem cleanup_logs_inst (env : Env) (cfg : Config) (d : Int) (st0 : LoggerState)
    (hclk : ∀ n, (env.clock n).date = d) (hl : st0.lockHeld = false)
    (hd : st0.current_day = some d) (w : World) (b : Str)
    (hw : w.stdout = SlotRef.loggerRef) (hst : w.loggerSt = some { st0 with buffer := b }) :
    ∃ tr w2 b2, cleanup_logs env cfg w = (tr, Outcome.ok w2)
      ∧ w2.stdout = SlotRef.loggerRef ∧ w2.stderr = w.stderr ∧ w2.dirExists = w.dirExists
      ∧ w2.loggerSt = some { st0 with buffer := b2 } := by
  obtain ⟨tr1, w1, b1, heq1, hw1, hse1, hde1, _, hst1⟩ :=
    printW_inst env cfg d st0 hclk hl hd { w with tick := w.tick + 1 } b
      (stampR (env.clock w.tick) "Running daily log cleanup...".toList)
      (by simpa using hw) (by simpa using hst)
  replace hw1 : w1.stdout = SlotRef.loggerRef := by rw [hw1]; exact hw
  replace hse1 : w1.stderr = w.stderr := by rw [hse1]
  replace hde1 : w1.dirExists = w.dirExists := by rw [hde1]
  simp only [String.toList] at heq1
  by_cases hdir : w1.dirExists = true
  · obtain ⟨tr2, w2, b2, heq2, hw2, hse2, hde2, hst2⟩ :=
      cleanupEntries_inst env cfg ((env.clock w.tick).date - cfg.retention_days) d st0 hclk hl
        hd w1.files w1 b1 hw1 hst1
    obtain ⟨tr3, w3, b3, heq3, hw3, hse3, hde3, _, hst3⟩ :=
      printW_inst env cfg d st0 hclk hl hd { w2 with tick := w2.tick + 1 } b2
        (stampR (env.clock w2.tick) "Log cleanup finished.".toList)
        (by simpa using hw2) (by simpa using hst2)
    replace hw3 : w3.stdout = SlotRef.loggerRef := by rw [hw3]; exact hw2
    replace hse3 : w3.stderr = w2.stderr := by rw [hse3]
    replace hde3 : w3.dirExists = w2.dirExists := by rw [hde3]
    have hfin : printStamped env cfg w2 "Log cleanup finished.".toList
        = (tr3, Outcome.ok w3) := heq3
    simp at hfin
    refine ⟨tr1 ++ (tr2 ++ tr3), w3, b3, ?_, hw3, by rw [hse3, hse2, hse1],
      by rw [hde3, hde2, hde1], hst3⟩
    simp [cleanup_logs, andThen, heq1, hdir, heq2, hfin]
  · obtain ⟨tr3, w3, b3, heq3, hw3, hse3, hde3, _, hst3⟩ :=
      printW_inst env cfg d st0 hclk hl hd { w1 with tick := w1.tick + 1 } b1
        (stampR (env.clock w1.tick) "Log cleanup finished.".toList)
        (by simpa using hw1) (by simpa using hst1)
    replace hw3 : w3.stdout = SlotRef.loggerRef := by rw [hw3]; exact hw1
    replace hse3 : w3.stderr = w1.stderr := by rw [hse3]
    replace hde3 : w3.dirExists = w1.dirExists := by rw [hde3]
    have hfin : printStamped env cfg w1 "Log cleanup finished.".toList
        = (tr3, Outcome.ok w3) := heq3
    simp at hfin
    refine ⟨tr1 ++ tr3, w3, b3, ?_, hw3, by rw [hse3, hse1], by rw [hde3, hde1], hst3⟩
    simp [cleanup_logs, andThen, heq1, hdir, hfin]

/-- Claim C7, counterexample: a second install call is not free of side
effects — before detecting the already-installed interceptor it re-runs the
startup cleanup and its reports are routed through the installed logger, so the
two calls together append strictly more file lines than the first call alone.
-/
theorem C7_counterexample :
    fwritesOf (andThen (setup envA cfgCU w0) (fun w => setup envA cfgCU w)).1
      ≠ fwritesOf (setup envA cfgCU w0).1 := by decide

/-- Claim C7 (amended): a second install does not replace the interceptor —
setup returns normally with sys.stdout still referring to the single installed
logger, sys.stderr untouched, and the same Logger object (all fields but the
partial-line buffer unchanged, in particular the same captured terminal) — but
it is not a pure no-op: directory creation and the optional startup cleanup
re-run first and their reports pass through the installed logger (see the
counterexample for the resulting side effects). -/
theorem C7_second_install (env : Env) (cfg : Config) (d : Int) (st0 : LoggerState) (w : World)
    (b : Str) (hclk : ∀ n, (env.clock n).date = d) (hl : st0.lockHeld = false)
    (hd : st0.current_day = some d) (hw : w.stdout = SlotRef.loggerRef)
    (hst : w.loggerSt = some { st0 with buffer := b }) :
    ∃ tr w2 b2, setup env cfg w = (tr, Outcome.ok w2)
      ∧ w2.stdout = SlotRef.loggerRef ∧ w2.stderr = w.stderr
      ∧ w2.loggerSt = some { st0 with buffer := b2 } := by
  by_cases hf : cfg.log_to_file = true
  · by_cases hcu : cfg.cleanup_on_startup = true
    · obtain ⟨tr1, w1, b1, heq1, hw1, hse1, hde1, hst1⟩ :=
        cleanup_logs_inst env cfg d st0 hclk hl hd { w with dirExists := true } b
          (by simpa using hw) (by simpa using hst)
      replace hse1 : w1.stderr = w.stderr := by rw [hse1]
      obtain ⟨tr2, w2, b2, heq2, hw2, hse2, _, _, hst2⟩ :=
        printW_inst env cfg d st0 hclk hl hd w1 b1 "Logging is already set up.".toList hw1 hst1
      replace hw2 : w2.stdout = SlotRef.loggerRef := by rw [hw2]; exact hw1
      replace hse2 : w2.stderr = w.stderr := by rw [hse2]; exact hse1
      refine ⟨tr1 ++ tr2, w2, b2, ?_, hw2, hse2, hst2⟩
      simp at heq2
      simp [setup, hf, hcu, andThen, heq1, hw1, heq2]
    · obtain ⟨tr2, w2, b2, heq2, hw2, hse2, _, _, hst2⟩ :=
        printW_inst env cfg d st0 hclk hl hd { w with dirExists := true } b
          "Logging is already set up.".toList (by simpa using hw) (by simpa using hst)
      replace hw2 : w2.stdout = SlotRef.loggerRef := by rw [hw2]; exact hw
      replace hse2 : w2.stderr = w.stderr := by rw [hse2]
      refine ⟨tr2, w2, b2, ?_, hw2, hse2, hst2⟩
      simp at heq2
      rw [hw] at heq2
      simp [setup, hf, hcu, andThen, hw, heq2]
  · obtain ⟨tr2, w2, b2, heq2, hw2, hse2, _, _, hst2⟩ :=
      printW_inst env cfg d st0 hclk hl hd w b "Logging is already set up.".toList hw hst
    replace hw2 : w2.stdout = SlotRef.loggerRef := by rw [hw2]; exact hw
    replace hse2 : w2.stderr = w.stderr := by rw [hse2]
    refine ⟨tr2, w2, b2, ?_, hw2, hse2, hst2⟩
    simp at heq2
    simp [setup, hf, andThen, hw, heq2]

/-- Claim C7, witness: a second setup on an installed day-0 logger returns
normally with the same interceptor still installed. -/
theorem C7_witness :
    wInstB.stdout = SlotRef.loggerRef ∧
    ∃ tr w2 b2, setup envA cfgCU wInstB = (tr, Outcome.ok w2)
      ∧ w2.stdout = SlotRef.loggerRef ∧ w2.stderr = wInstB.stderr
      ∧ w2.loggerSt = some { stA with buffer := b2 } :=
  ⟨rfl, C7_second_install envA cfgCU 0 stA wInstB [] (fun _ => rfl) rfl rfl rfl rfl⟩

/-- Claim C8: uninstall restores the stream captured at install time to both
the standard-output and standard-error roles, flushes a non-blank buffer
residue as exactly one final timestamped line immediately before the file
handle is closed and discarded, and a second uninstall is a no-op. -/
theorem C8_uninstall_roundtrip (env : Env) (cfg : Config) (w : World) (st : LoggerState)
    (hw : w.stdout = SlotRef.loggerRef) (hst : w.loggerSt = some st) :
    ∃ w2, shutdown env cfg w
        = ((match st.log_file with
            | some p =>
              (if (pyStrip st.buffer).isEmpty then ([] : Trace)
               else [Ev.fwrite p (formatLine cfg.line_format
                   ((env.clock w.tick).render cfg.timestamp_format) (pyStrip st.buffer)
                   ++ ['\n'])])
                ++ [Ev.fclose p]
            | none => ([] : Trace)), w2)
      ∧ w2.stdout = SlotRef.term st.terminal ∧ w2.stderr = SlotRef.term st.terminal
      ∧ (∃ st2, w2.loggerSt = some st2 ∧ st2.log_file = none)
      ∧ shutdown env cfg w2 = ([], w2) := by
  cases hlf : st.log_file with
  | none =>
    refine ⟨restoredW w st.terminal st w.tick, ?_, by simp [restoredW],
      by simp [restoredW], ⟨st, by simp [restoredW], hlf⟩, by simp [shutdown, restoredW]⟩
    simp [shutdown, hw, hst, close, hlf, restoredW]
  | some p =>
    by_cases hb : (pyStrip st.buffer).isEmpty
    · refine ⟨restoredW w st.terminal { st with log_file := none } w.tick, ?_,
        by simp [restoredW], by simp [restoredW],
        ⟨{ st with log_file := none }, by simp [restoredW], by simp⟩,
        by simp [shutdown, restoredW]⟩
      simp [shutdown, hw, hst, close, hlf, hb, restoredW]
    · refine ⟨restoredW w st.terminal { st with buffer := [], log_file := none }
          (w.tick + 1), ?_, by simp [restoredW], by simp [restoredW],
        ⟨{ st with buffer := [], log_file := none }, by simp [restoredW], by simp⟩,
        by simp [shutdown, restoredW]⟩
      simp [shutdown, hw, hst, close, hlf, hb, restoredW]

/-- Claim C8, witness: uninstalling a logger whose buffer holds a non-blank
residue flushes exactly one trimmed timestamped line, closes the file, restores
the terminal to both slots, and a repeated uninstall is a no-op. -/
theorem C8_witness :
    wInst.stdout = SlotRef.loggerRef ∧
    ∃ w2, shutdown envA cfgA wInst
        = ((match stResidue.log_file with
            | some p =>
              (if (pyStrip stResidue.buffer).isEmpty then ([] : Trace)
               else [Ev.fwrite p (formatLine cfgA.line_format
                   ((envA.clock wInst.tick).render cfgA.timestamp_format)
                   (pyStrip stResidue.buffer) ++ ['\n'])])
                ++ [Ev.fclose p]
            | none => ([] : Trace)), w2)
      ∧ w2.stdout = SlotRef.term stResidue.terminal
      ∧ w2.stderr = SlotRef.term stResidue.terminal
      ∧ (∃ st2, w2.loggerSt = some st2 ∧ st2.log_file = none)
      ∧ shutdown envA cfgA w2 = ([], w2) :=
  ⟨rfl, C8_uninstall_roundtrip envA cfgA wInst stResidue rfl rfl⟩

/-- Shutdown always restores the terminal captured in the installed logger to
both stream slots, whatever the close path does. -/
theorem shutdown_restores (env : Env) (cfg : Config) (w : World) (st : LoggerState)
    (hw : w.stdout = SlotRef.loggerRef) (hst : w.loggerSt = some st) :
    ∃ tr w2, shutdown env cfg w = (tr, w2)
      ∧ w2.stdout = SlotRef.term st.terminal ∧ w2.stderr = SlotRef.term st.terminal := by
  rcases hc : close env cfg w.tick st with ⟨tr, tst2⟩
  rcases tst2 with ⟨t, st2⟩
  refine ⟨tr, restoredW w st.terminal st2 t, ?_, by simp [restoredW], by simp [restoredW]⟩
  simp [shutdown, hw, hst, hc, restoredW]

/-- Logger.__init__ with every open succeeding constructs a logger that has
captured the given stream and returns it normally. -/
theorem loggerInit_ok (env : Env) (cfg : Config) (cap tick : Nat)
    (hopen : ∀ p, env.openFails p = none) :
    ∃ tr t st, loggerInit env cfg cap tick = (tr, t, Outcome.ok st) ∧ st.terminal = cap := by
  by_cases hf : cfg.log_to_file = true
  · refine ⟨(if cfg.log_to_console then [Ev.console cap (bannerAt env (tick + 2))] else [])
        ++ [Ev.fwrite (pathAt env cfg (tick + 1)) (bannerAt env (tick + 2))], tick + 3,
      LoggerState.mk cap false (some (pathAt env cfg (tick + 1)))
        (some (pathAt env cfg (tick + 1))) (some ((env.clock tick).date)) [], ?_, rfl⟩
    simp [loggerInit, hf, rotate_log_if_needed, get_expected_log_path, pathAt, hopen,
      writeInternal, Nat.add_assoc]
  · exact ⟨[], tick, LoggerState.mk cap false none none none [], by simp [loggerInit, hf],
      rfl⟩

/-- The sweep run at startup over the console returns normally, changing only
the directory listing and the tick. -/
theorem cleanup_term_ok (env : Env) (cfg : Config) (i : Nat) (w : World)
    (hw : w.stdout = SlotRef.term i) :
    ∃ tr fs t, cleanup_logs env cfg w = (tr, Outcome.ok (filesTick w fs t)) := by
  obtain ⟨tr, t, heq, _⟩ := cleanup_logs_term env cfg i w hw
  exact ⟨tr, _, t, heq⟩

/-- Claim C9: install captures only the stream in the standard-output role;
uninstall assigns that single captured stream to both roles, so after an
install/uninstall pair the standard-error role holds the pre-install stdout,
never the pre-install stderr. -/
theorem C9_stderr_not_restored (env : Env) (cfg : Config) (w : World) (a b : Nat)
    (ha : w.stdout = SlotRef.term a) (hb : w.stderr = SlotRef.term b)
    (hopen : ∀ p, env.openFails p = none) :
    ∃ tr1 w1 tr2 w2, setup env cfg w = (tr1, Outcome.ok w1)
      ∧ shutdown env cfg w1 = (tr2, w2)
      ∧ w2.stdout = SlotRef.term a ∧ w2.stderr = SlotRef.term a
      ∧ (a ≠ b → w2.stderr ≠ SlotRef.term b) := by
  by_cases hf : cfg.log_to_file = true
  · by_cases hcu : cfg.cleanup_on_startup = true
    · obtain ⟨trC, fsC, tC, heqC⟩ :=
        cleanup_term_ok env cfg a { w with dirExists := true } (by simpa using ha)
      obtain ⟨trI, tI, stI, heqI, htermI⟩ := loggerInit_ok env cfg a tC hopen
      rw [ha] at heqC
      have hsetup : setup env cfg w
          = (trC ++ trI,
             Outcome.ok (installW (filesTick { w with dirExists := true } fsC tC) stI tI)) := by
        simp [setup, hf, hcu, andThen, heqC, filesTick, installW, ha, heqI]
      obtain ⟨tr2, w2, hsd, hso, hse⟩ :=
        shutdown_restores env cfg
          (installW (filesTick { w with dirExists := true } fsC tC) stI tI) stI rfl rfl
      refine ⟨trC ++ trI, _, tr2, w2, hsetup, hsd, by rw [hso, htermI],
        by rw [hse, htermI], ?_⟩
      intro hab hcon
      rw [hse, htermI] at hcon
      exact hab (by injection hcon)
    · obtain ⟨trI, tI, stI, heqI, htermI⟩ := loggerInit_ok env cfg a w.tick hopen
      have hsetup : setup env cfg w
          = (trI, Outcome.ok (installW { w with dirExists := true } stI tI)) := by
        simp [setup, hf, hcu, andThen, ha, installW, heqI]
      obtain ⟨tr2, w2, hsd, hso, hse⟩ :=
        shutdown_restores env cfg (installW { w with dirExists := true } stI tI) stI rfl rfl
      refine ⟨trI, _, tr2, w2, hsetup, hsd, by rw [hso, htermI], by rw [hse, htermI], ?_⟩
      intro hab hcon
      rw [hse, htermI] at hcon
      exact hab (by injection hcon)
  · obtain ⟨trI, tI, stI, heqI, htermI⟩ := loggerInit_ok env cfg a w.tick hopen
    have hsetup : setup env cfg w = (trI, Outcome.ok (installW w stI tI)) := by
      simp [setup, hf, andThen, ha, installW, heqI]
    obtain ⟨tr2, w2, hsd, hso, hse⟩ :=
      shutdown_restores env cfg (installW w stI tI) stI rfl rfl
    refine ⟨trI, _, tr2, w2, hsetup, hsd, by rw [hso, htermI], by rw [hse, htermI], ?_⟩
    intro hab hcon
    rw [hse, htermI] at hcon
    exact hab (by injection hcon)

/-- Claim C9, witness: installing over terminal 0 as stdout and terminal 1 as
stderr and then uninstalling leaves terminal 0 in both slots; the original
stderr, terminal 1, is not restored. -/
theorem C9_witness :
    w0.stderr = SlotRef.term 1 ∧
    ∃ tr1 w1 tr2 w2, setup envA cfgA w0 = (tr1, Outcome.ok w1)
      ∧ shutdown envA cfgA w1 = (tr2, w2)
      ∧ w2.stdout = SlotRef.term 0 ∧ w2.stderr = SlotRef.term 0
      ∧ ((0 : Nat) ≠ 1 → w2.stderr ≠ SlotRef.term 1) :=
  ⟨rfl, C9_stderr_not_restored envA cfgA w0 0 1 rfl rfl (fun _ => rfl)⟩

end CustomLogger
